import Mathlib

/-!
Shallow embedding of the NEAR JSON-RPC provider (`sdk/py_near/providers.py`,
`sdk/py_near/models.py`) of the nrc-20 repository, together with theorems
settling the specification claims about endpoint health tracking, dispatch
failover, error classification and transaction-result decoding.
-/

namespace NRC20

/-! ## JSON-like bodies

The `data` field of an RPC error and other JSON values are modelled as a
tree: a Python `dict` keeps its insertion-ordered entries; every non-dict
value (string, number, list, null) is collapsed to `other`, since the code
under study only ever branches on dict-ness, emptiness and keys. -/

inductive Body where
  | dict (entries : List (String × Body))
  | other

/-! ## Error taxonomy

`PROVIDER_CODE_TO_EXCEPTION` maps `error.cause.name` strings to
provider-level exception classes (providers.py lines 30-43). The
action-level table `ERROR_CODE_TO_EXCEPTION` lives in
`sdk/py_near/exceptions/provider.py`, which is not part of the sources;
it is kept abstract as a predicate on key strings. -/

inductive ProviderKind where
  | UnknownBlockError
  | InvalidAccount
  | UnknownAccount
  | NoContractCodeError
  | TooLargeContractStateError
  | UnavailableShardError
  | NoSyncedBlocksError
  | InternalError
  | NoSyncedYetError
  | InvalidTransactionError
  | RPCTimeoutError
  | UnknownAccessKeyError
deriving DecidableEq, Repr

def PROVIDER_CODE_TO_EXCEPTION : List (String × ProviderKind) :=
  [("UNKNOWN_BLOCK", .UnknownBlockError),
   ("INVALID_ACCOUNT", .InvalidAccount),
   ("UNKNOWN_ACCOUNT", .UnknownAccount),
   ("NO_CONTRACT_CODE", .NoContractCodeError),
   ("TOO_LARGE_CONTRACT_STATE", .TooLargeContractStateError),
   ("UNAVAILABLE_SHARD", .UnavailableShardError),
   ("NO_SYNCED_BLOCKS", .NoSyncedBlocksError),
   ("INTERNAL_ERROR", .InternalError),
   ("NOT_SYNCED_YET", .NoSyncedYetError),
   ("INVALID_TRANSACTION", .InvalidTransactionError),
   ("TIMEOUT_ERROR", .RPCTimeoutError),
   ("UNKNOWN_ACCESS_KEY", .UnknownAccessKeyError)]

/-- `PROVIDER_CODE_TO_EXCEPTION.get(error_code, InternalError)`. -/
def providerLookup (code : String) : ProviderKind :=
  (PROVIDER_CODE_TO_EXCEPTION.lookup code).getD .InternalError

/-- The classification an error carries: either a provider-level class from
`PROVIDER_CODE_TO_EXCEPTION` (or the `InternalError` default), or an
action-level class from `ERROR_CODE_TO_EXCEPTION`, identified by its key. -/
inductive ErrKind where
  | provider (k : ProviderKind)
  | action (code : String)
deriving DecidableEq, Repr

/-- The `"error"` field of a response body: `cause.name` (with Python's
`.get` defaults collapsing an absent `cause` or `name` to `""`) and the
`data` body. -/
structure ErrorObj where
  causeName : String
  data : Body

/-- A raised provider error: the classification together with the body it
was constructed from (`error_json` is always the whole original error
object and is not repeated here). -/
structure RaisedError where
  kind : ErrKind
  body : Body

/-- The `while True` refinement loop of `get_error_from_response`
(providers.py lines 135-146): `err` is the error built so far, `body` the
current error body; while the body is a dict, if it is empty return the
current error, else take its first entry `(key, body)`; if `key` is in the
action table replace the error and continue the walk on the entry's value,
otherwise stop. `tbl` is the (abstract) key set of `ERROR_CODE_TO_EXCEPTION`. -/
def refineLoop (tbl : String → Bool) : Body → RaisedError → RaisedError
  | .other, err => err
  | .dict [], err => err
  | .dict ((key, rest) :: _), err =>
      if tbl key then refineLoop tbl rest ⟨.action key, rest⟩ else err

/-- `JsonProvider.get_error_from_response` (providers.py lines 127-147) on
a body that does contain an `"error"` field: look the cause name up in the
provider table (defaulting to `InternalError`), then refine by walking the
error data. -/
def get_error_from_response (tbl : String → Bool) (err : ErrorObj) : RaisedError :=
  refineLoop tbl err.data ⟨.provider (providerLookup err.causeName), err.data⟩

/-- Spec-side description of the single-key walk: the chain of (key, value)
entries obtained by repeatedly taking the key of the current mapping while
that key is in the action-level table. -/
def specChain (tbl : String → Bool) : Body → List (String × Body)
  | .dict ((key, rest) :: _) =>
      if tbl key then (key, rest) :: specChain tbl rest else []
  | _ => []

/-- Spec-side classification: the most specific kind reached by the
single-key walk — the last refinement of the chain, or the provider-level
lookup (with the `InternalError` default) when the chain is empty. -/
def specClassification (tbl : String → Bool) (err : ErrorObj) : RaisedError :=
  match (specChain tbl err.data).getLast? with
  | some (key, rest) => ⟨.action key, rest⟩
  | none => ⟨.provider (providerLookup err.causeName), err.data⟩

/-! ## Endpoint health checking -/

/-- Outcome of the `GET {addr}/status` probe issued by
`check_available_rpcs` for one candidate: HTTP 200 with a parseable body
reporting `sync_info.syncing == false` (paired with the measured wall-clock
latency), HTTP 200 but syncing, a non-200 status, or a raised exception
(connection failure, timeout, unparseable body, ...). -/
inductive ProbeOutcome where
  | ok (latency : Nat)
  | syncing (latency : Nat)
  | badStatus (code : Nat)
  | exn
deriving DecidableEq, Repr

/-- `JsonProvider.check_available_rpcs` (providers.py lines 57-89): collect
`(addr, latency)` for every candidate whose probe succeeded with a synced
node, dropping (and only logging) every other candidate, then store the
addresses sorted ascending by latency. Python's `sorted` is a stable
ascending sort, modelled by `List.mergeSort`. -/
def check_available_rpcs (probe : String → ProbeOutcome) (candidates : List String) :
    List String :=
  let available := candidates.filterMap fun addr =>
    match probe addr with
    | .ok latency => some (addr, latency)
    | _ => none
  (available.mergeSort (fun x y => x.2 ≤ y.2)).map (·.1)

/-! ## Request dispatch -/

/-- A decoded JSON-RPC response body (a Python dict): possibly an `"error"`
entry, possibly a `"result"` entry, and the keys of any other entries
(tracked only so that dict emptiness — Python truthiness — is faithful). -/
structure Content where
  error : Option ErrorObj
  result : Option Body
  otherKeys : List String

/-- Python truthiness of the response dict: `not content` is true exactly
when the dict has no entries at all. -/
def Content.isEmptyDict (c : Content) : Bool :=
  c.error.isNone && c.result.isNone && c.otherKeys.isEmpty

/-- The exception classes caught by the request loop's `except` clause
(providers.py lines 116-122): `RPCTimeoutError`, `ClientResponseError`,
`ClientConnectorError`, `ServerDisconnectedError`, `ConnectionError`. -/
inductive TransportErr where
  | rpcTimeoutError
  | clientResponseError
  | clientConnectorError
  | serverDisconnectedError
  | connectionError
deriving DecidableEq, Repr

/-- Outcome of one `session.post` attempt against one endpoint: a 2xx
response with a parseable body, a raised exception of one of the caught
transport classes, or any other raised exception (which the loop does not
catch). -/
inductive PostOutcome where
  | success (content : Content)
  | transportFail (e : TransportErr)
  | otherFail

/-- What the request loop did: the endpoints attempted in order, the
content obtained (if any), and whether an uncaught exception aborted it. -/
structure LoopResult where
  attempted : List String
  content : Option Content
  uncaught : Bool

/-- The request loop of `call_rpc_request` (providers.py lines 108-125):
try each available endpoint in order; on success keep the decoded body and
break; on a caught transport-class failure log and continue with the next
endpoint; any other exception propagates out of the loop. -/
def requestLoop (post : String → PostOutcome) : List String → LoopResult
  | [] => ⟨[], none, false⟩
  | addr :: rest =>
    match post addr with
    | .success c => ⟨[addr], some c, false⟩
    | .transportFail _ =>
        let r := requestLoop post rest
        ⟨addr :: r.attempted, r.content, r.uncaught⟩
    | .otherFail => ⟨[addr], none, true⟩

/-- The provider's mutable state: `self._available_rpcs` and
`self._last_rpc_addr_check` (initially `0`). -/
structure ProviderState where
  available : List String
  lastCheck : Int

/-- The environment one `call_rpc_request` call runs in: the current
wall-clock timestamp and the network's responses to probes and posts. -/
structure Env where
  now : Int
  probe : String → ProbeOutcome
  post : String → PostOutcome

/-- Result of one `call_rpc_request` call. -/
inductive DispatchResult where
  | raisedNotAvailable
  | content (c : Option Content)
  | uncaughtExn

/-- Observable record of one `call_rpc_request` call: whether a refresh was
awaited to completion before the loop, whether one was spawned as a
background task, which endpoints were POSTed to, and the result. -/
structure DispatchLog where
  refreshAwaited : Bool
  refreshSpawned : Bool
  attempted : List String
  result : DispatchResult

/-- `JsonProvider.call_rpc_request` (providers.py lines 91-125). If the
last check is older than 30 seconds or no endpoint is available, record a
new check timestamp and refresh: as a fire-and-forget background task when
endpoints are still available (`asyncio.create_task` — the task only runs
at a later suspension point, so this call's loop still iterates the old
list), otherwise awaited synchronously. Then the no-endpoint guard, then
the request loop. -/
def call_rpc_request (env : Env) (candidates : List String) (st : ProviderState) :
    DispatchLog × ProviderState :=
  let cond := st.lastCheck < env.now - 30 || st.available.isEmpty
  let lastCheck' := if cond then env.now else st.lastCheck
  let (available', awaited, spawned) :=
    if cond then
      if st.available.isEmpty then
        (check_available_rpcs env.probe candidates, true, false)
      else
        (st.available, false, true)
    else
      (st.available, false, false)
  if available'.isEmpty then
    (⟨awaited, spawned, [], .raisedNotAvailable⟩, ⟨available', lastCheck'⟩)
  else
    let r := requestLoop env.post available'
    (⟨awaited, spawned, r.attempted,
        if r.uncaught then .uncaughtExn else .content r.content⟩,
      ⟨available', lastCheck'⟩)

/-- What a `json_rpc` caller observes. -/
inductive JsonRpcOut where
  | raisedNotAvailable
  | raisedError (e : RaisedError)
  | ok (r : Body)
  | keyError
  | uncaughtTransport

/-- The guard-and-classify tail of `JsonProvider.json_rpc` (providers.py
lines 151-157) applied to the content produced by `call_rpc_request`:
`if not content` (absent or an empty dict) raise `RpcNotAvailableError`;
then raise the classified error when the body has an `"error"` field;
otherwise return the `"result"` field (`content["result"]` raises
`KeyError` when absent). -/
def json_rpc_guard (tbl : String → Bool) (content : Option Content) : JsonRpcOut :=
  match content with
  | none => .raisedNotAvailable
  | some c =>
    if c.isEmptyDict then .raisedNotAvailable
    else
      match c.error with
      | some e => .raisedError (get_error_from_response tbl e)
      | none =>
        match c.result with
        | some r => .ok r
        | none => .keyError

/-- `JsonProvider.json_rpc` (providers.py lines 149-157): dispatch via
`call_rpc_request`, then guard and classify. -/
def json_rpc (tbl : String → Bool) (env : Env) (candidates : List String)
    (st : ProviderState) : JsonRpcOut × ProviderState :=
  let (log, st') := call_rpc_request env candidates st
  (match log.result with
   | .raisedNotAvailable => .raisedNotAvailable
   | .uncaughtExn => .uncaughtTransport
   | .content c => json_rpc_guard tbl c,
   st')

/-! ## send_tx_and_wait and its polling fallback -/

/-- Python truthiness of an optional string argument (`if receiver_id and
trx_hash:`): `None` and the empty string are falsy. -/
def pyTruthy : Option String → Bool
  | none => false
  | some s => !s.isEmpty

/-- Outcome of the broadcast (`json_rpc("broadcast_tx_commit", ...)`)
inside `send_tx_and_wait`: a result, a raised exception of class
`RPCTimeoutError` (the only class the `except` clause catches), or any
other raised exception. -/
inductive BroadcastOutcome where
  | ok (v : Nat)
  | rpcTimeout (orig : RaisedError)
  | otherError (e : RaisedError)

/-- Outcome of the `i`-th `get_tx` poll inside the fallback loop: a raised
`InternalError`, any other raised exception (both swallowed by the two
`except` clauses), or a returned value together with its Python
truthiness. -/
inductive PollOutcome where
  | internalErr
  | otherExn
  | ok (truthy : Bool) (v : Nat)

/-- What `send_tx_and_wait` produces. -/
inductive WaitResult where
  | ok (v : Nat)
  | polled (i : Nat) (v : Nat)
  | reraisedTimeout (orig : RaisedError)
  | raisedOther (e : RaisedError)

/-- The fallback loop body of `send_tx_and_wait` (providers.py lines
189-199): `for _ in range(bound)`, each iteration first `await
asyncio.sleep(3)` then tries `get_tx`; `InternalError` and any other
exception are swallowed and the loop continues; a truthy result is
returned; when the range is exhausted the original timeout error is
re-raised. `i` is the poll index, `fuel` the remaining range, `elapsed`
the seconds slept so far; besides the result, the list of instants (in
seconds after entering the loop) at which `get_tx` was called is
returned. -/
def fallbackLoop (poll : Nat → PollOutcome) (orig : RaisedError) :
    Nat → Nat → Nat → WaitResult × List Nat
  | _, 0, _ => (.reraisedTimeout orig, [])
  | i, fuel + 1, elapsed =>
    let t := elapsed + 3
    match poll i with
    | .internalErr =>
        let (r, ts) := fallbackLoop poll orig (i + 1) fuel t
        (r, t :: ts)
    | .otherExn =>
        let (r, ts) := fallbackLoop poll orig (i + 1) fuel t
        (r, t :: ts)
    | .ok truthy v =>
        if truthy then (.polled i v, [t])
        else
          let (r, ts) := fallbackLoop poll orig (i + 1) fuel t
          (r, t :: ts)

/-- `JsonProvider.send_tx_and_wait` (providers.py lines 168-200) after the
broadcast outcome is known: a successful broadcast is returned; an
exception of class `RPCTimeoutError` triggers the polling fallback when
both `receiver_id` and `trx_hash` are truthy, with the attempt bound
`constants.TIMEOUT_WAIT_RPC // 3` (`timeoutWaitRpc` is that configured
constant; its module is not among the sources, so its value stays a
parameter); any other exception propagates. -/
def send_tx_and_wait (timeoutWaitRpc : Nat) (broadcast : BroadcastOutcome)
    (trxHash receiverId : Option String) (poll : Nat → PollOutcome) :
    WaitResult × List Nat :=
  match broadcast with
  | .ok v => (.ok v, [])
  | .otherError e => (.raisedOther e, [])
  | .rpcTimeout orig =>
    if pyTruthy receiverId && pyTruthy trxHash then
      fallbackLoop poll orig 0 (timeoutWaitRpc / 3) 0
    else
      (.reraisedTimeout orig, [])

/-! ## Multi-call runs (refresh cooldown) -/

/-- One step of a run of dispatch calls: the call's environment, plus an
optional replacement of the available list happening before the call — a
previously spawned background `check_available_rpcs` task completing at a
suspension point between the calls. Background completion assigns
`self._available_rpcs` only; it never touches `self._last_rpc_addr_check`. -/
structure RunStep where
  env : Env
  backgroundUpdate : Option (List String)

/-- The state a dispatch call actually starts from, after any pending
background refresh completion. -/
def applyBG (s : RunStep) (st : ProviderState) : ProviderState :=
  match s.backgroundUpdate with
  | some l => { st with available := l }
  | none => st

/-- A sequence of `call_rpc_request` calls threading the provider state,
returning every call's log and the final state. -/
def dispatchRun (candidates : List String) (st : ProviderState) :
    List RunStep → List DispatchLog × ProviderState
  | [] => ([], st)
  | s :: rest =>
    let (log, st') := call_rpc_request s.env candidates (applyBG s st)
    let (logs, stF) := dispatchRun candidates st' rest
    (log :: logs, stF)

/-- A call triggered a refresh (of either kind). -/
def DispatchLog.triggered (log : DispatchLog) : Bool :=
  log.refreshAwaited || log.refreshSpawned

/-! ## Interleaving of a refresh with concurrent dispatch reads -/

/-- The state visible to the single-threaded event loop while a
`check_available_rpcs` call is in progress: the shared
`self._available_rpcs` attribute and the coroutine's local `available_rpcs`
accumulator. -/
structure ConcState where
  shared : List String
  localAcc : List (String × Nat)

/-- One loop iteration of `check_available_rpcs` as an atomic segment
between suspension points: probe one candidate and append to the local
accumulator; the shared attribute is not touched. -/
def refreshStep (probe : String → ProbeOutcome) (addr : String) (s : ConcState) :
    ConcState :=
  { s with
    localAcc := s.localAcc ++
      (match probe addr with
       | .ok latency => [(addr, latency)]
       | _ => []) }

/-- The final statement of `check_available_rpcs` (providers.py lines
87-89): sort the accumulator and assign the shared attribute. The
statement contains no `await`, so it is a single atomic segment of the
cooperative schedule. -/
def refreshCommit (s : ConcState) : ConcState :=
  { s with shared := (s.localAcc.mergeSort (fun x y => x.2 ≤ y.2)).map (·.1) }

/-- `check_available_rpcs` as the sequence of its atomic segments. -/
def refreshProgram (probe : String → ProbeOutcome) (candidates : List String) :
    List (ConcState → ConcState) :=
  candidates.map (refreshStep probe) ++ [refreshCommit]

/-- Run the first `k` atomic segments — the shared state a concurrent
dispatch call observes when it is scheduled after `k` segments of the
refresh. -/
def runSegments (prog : List (ConcState → ConcState)) (s : ConcState) : ConcState :=
  prog.foldl (fun st f => f st) s

/-! ## TransactionResult.logs (models.py) -/

/-- `ReceiptOutcome` (models.py): only the `logs` field participates in the
`logs` property; the other fields (metadata, receipt_ids, status,
tokens_burnt, gas_burnt) are omitted. -/
structure ReceiptOutcome where
  logs : List String
deriving DecidableEq, Repr

/-- `TransactionResult` (models.py): the decoded transaction outcome and
the receipt outcomes, in receipt order. -/
structure TransactionResult where
  transaction_outcome : ReceiptOutcome
  receipt_outcome : List ReceiptOutcome
deriving DecidableEq, Repr

/-- The `logs` property of `TransactionResult` (models.py lines 285-290):
`logs = self.transaction_outcome.logs` binds the list object itself, and
each `logs.extend(ro.logs)` mutates that object in place, so the read
returns the concatenation AND leaves `transaction_outcome.logs` equal to
it. The returned pair is (returned list, object state after the read). -/
def TransactionResult.logsProperty (t : TransactionResult) :
    List String × TransactionResult :=
  let l := t.receipt_outcome.foldl (fun acc ro => acc ++ ro.logs)
    t.transaction_outcome.logs
  (l, ⟨⟨l⟩, t.receipt_outcome⟩)

/-! ## Helper lemmas -/

/-- The `while True` refinement loop returns the last refinement of the
spec-side key chain, or the incoming error when the chain is empty. -/
theorem refineLoop_eq_specChain (tbl : String → Bool) :
    ∀ (body : Body) (err : RaisedError),
    refineLoop tbl body err =
      match (specChain tbl body).getLast? with
      | some (key, rest) => ⟨.action key, rest⟩
      | none => err := by
  intro body err
  induction body, err using refineLoop.induct tbl with
  | case1 err0 => simp [refineLoop, specChain]
  | case2 err0 => simp [refineLoop, specChain]
  | case3 key rest tail err0 htbl ih =>
      simp only [refineLoop, specChain, htbl, if_true]
      rw [ih]
      cases h : (specChain tbl rest).getLast? with
      | none =>
        have hnil : specChain tbl rest = [] := by
          cases hc : specChain tbl rest with
          | nil => rfl
          | cons a l =>
            rw [hc] at h
            exact absurd h (by simp [List.getLast?_cons])
        simp [hnil]
      | some p =>
        cases hc : specChain tbl rest with
        | nil => rw [hc] at h; simp at h
        | cons a l =>
          rw [hc] at h
          rw [List.getLast?_cons_cons, h]
  | case4 key rest tail err0 htbl =>
      simp [refineLoop, specChain, htbl]

/-- A run of the request loop over endpoints that all fail with a caught
transport-class exception attempts every endpoint in order and yields no
content. -/
theorem requestLoop_all_transport (post : String → PostOutcome) :
    ∀ l : List String, (∀ a ∈ l, ∃ te, post a = .transportFail te) →
    requestLoop post l = ⟨l, none, false⟩ := by
  intro l
  induction l with
  | nil => intro _; rfl
  | cons a rest ih =>
    intro h
    obtain ⟨te, hte⟩ := h a (by simp)
    have hrest := ih fun b hb => h b (by simp [hb])
    simp [requestLoop, hte, hrest]

/-- A run of the request loop where every endpoint before `e` fails with a
caught transport-class exception and `e` succeeds attempts exactly
`pre ++ [e]` and keeps `e`'s decoded body. -/
theorem requestLoop_first_success (post : String → PostOutcome)
    (e : String) (c : Content) (he : post e = .success c) :
    ∀ (pre rest : List String), (∀ a ∈ pre, ∃ te, post a = .transportFail te) →
    requestLoop post (pre ++ e :: rest) = ⟨pre ++ [e], some c, false⟩ := by
  intro pre
  induction pre with
  | nil => intro rest _; simp [requestLoop, he]
  | cons a pre' ih =>
    intro rest h
    obtain ⟨te, hte⟩ := h a (by simp)
    have hrec := ih rest fun b hb => h b (by simp [hb])
    simp [requestLoop, hte, hrec]

/-- When endpoints are available at entry, `call_rpc_request` runs the
request loop over exactly the entry list (a refresh, if due, is only
spawned in the background and this call still iterates the old list). -/
theorem call_rpc_request_nonempty (env : Env) (candidates : List String)
    (st : ProviderState) (hne : st.available.isEmpty = false) :
    (call_rpc_request env candidates st).1.attempted =
      (requestLoop env.post st.available).attempted ∧
    (call_rpc_request env candidates st).1.result =
      (if (requestLoop env.post st.available).uncaught then .uncaughtExn
       else .content (requestLoop env.post st.available).content) := by
  have hne' : st.available ≠ [] := by
    intro h; rw [h] at hne; simp at hne
  by_cases h : st.lastCheck < env.now - 30 <;>
    simp [call_rpc_request, hne, hne', h]

/-- The request loop only ever attempts endpoints of the list it iterates. -/
theorem requestLoop_attempted_subset (post : String → PostOutcome) :
    ∀ l : List String, ∀ a ∈ (requestLoop post l).attempted, a ∈ l := by
  intro l
  induction l with
  | nil => intro a ha; simp [requestLoop] at ha
  | cons b rest ih =>
    intro a ha
    cases hb : post b with
    | success c =>
      simp [requestLoop, hb] at ha
      simp [ha]
    | transportFail te =>
      simp [requestLoop, hb] at ha
      rcases ha with rfl | ha
      · simp
      · simp [ih a ha]
    | otherFail =>
      simp [requestLoop, hb] at ha
      simp [ha]

/-- A poll outcome the fallback loop swallows and retries after: a raised
`InternalError`, any other raised exception, or a falsy result. -/
def retryablePoll (p : PollOutcome) : Prop :=
  p = .internalErr ∨ p = .otherExn ∨ ∃ v, p = .ok false v

/-- The fallback loop makes at most `fuel` polls, and the `j`-th poll
happens 3 seconds after the previous one (3 seconds after entry for the
first): the instants are `elapsed + 3·(j+1)`. -/
theorem fallbackLoop_times (poll : Nat → PollOutcome) (orig : RaisedError) :
    ∀ (fuel i elapsed : Nat), ∃ n ≤ fuel,
      (fallbackLoop poll orig i fuel elapsed).2 =
        (List.range n).map (fun j => elapsed + 3 * (j + 1)) := by
  intro fuel
  induction fuel with
  | zero => intro i elapsed; exact ⟨0, Nat.le_refl 0, by simp [fallbackLoop]⟩
  | succ fuel ih =>
    intro i elapsed
    have hstep : ∀ (r : WaitResult) (ts : List Nat),
        (fallbackLoop poll orig (i + 1) fuel (elapsed + 3)) = (r, ts) →
        ∃ n ≤ fuel + 1, (elapsed + 3) :: ts =
          (List.range n).map (fun j => elapsed + 3 * (j + 1)) := by
      intro r ts hr
      obtain ⟨n, hn, hts⟩ := ih (i + 1) (elapsed + 3)
      rw [hr] at hts
      simp only at hts
      refine ⟨n + 1, by omega, ?_⟩
      rw [hts, List.range_succ_eq_map, List.map_cons, List.map_map]
      have hmap : List.map ((fun j => elapsed + 3 * (j + 1)) ∘ fun j => j + 1)
          (List.range n) = List.map (fun j => elapsed + 3 + 3 * (j + 1)) (List.range n) := by
        refine List.map_congr_left ?_
        intro j _
        simp only [Function.comp_apply]
        omega
      rw [hmap]
    cases hp : poll i with
    | internalErr =>
      simp only [fallbackLoop, hp]
      exact hstep _ _ rfl
    | otherExn =>
      simp only [fallbackLoop, hp]
      exact hstep _ _ rfl
    | ok truthy v =>
      cases truthy with
      | true =>
        refine ⟨1, by omega, ?_⟩
        have h2 : (fallbackLoop poll orig i (fuel + 1) elapsed).2 = [elapsed + 3] := by
          simp [fallbackLoop, hp]
        rw [h2]
        have h3 : List.range 1 = [0] := rfl
        rw [h3, List.map_singleton]
      | false =>
        simp only [fallbackLoop, hp, Bool.false_eq_true, if_false]
        exact hstep _ _ rfl

/-- If the first truthy poll result within the bound is at index `i` and
every earlier poll was retryable, the fallback returns that result. -/
theorem fallbackLoop_first_success (poll : Nat → PollOutcome) (orig : RaisedError) :
    ∀ (fuel s elapsed i : Nat) (v : Nat), s ≤ i → i < s + fuel →
      (∀ j, s ≤ j → j < i → retryablePoll (poll j)) →
      poll i = .ok true v →
      (fallbackLoop poll orig s fuel elapsed).1 = .polled i v := by
  intro fuel
  induction fuel with
  | zero => intro s elapsed i v h1 h2 _ _; omega
  | succ fuel ih =>
    intro s elapsed i v h1 h2 hbefore hok
    by_cases hsi : s = i
    · subst hsi
      simp [fallbackLoop, hok]
    · have hlt : s < i := by omega
      have hr := hbefore s (Nat.le_refl s) hlt
      have hrec := ih (s + 1) (elapsed + 3) i v (by omega) (by omega)
        (fun j hj1 hj2 => hbefore j (by omega) hj2) hok
      rcases hr with h | h | ⟨v', h⟩ <;>
        simp [fallbackLoop, h, hrec]

/-- If every poll within the bound is retryable, the fallback re-raises
the original error unchanged. -/
theorem fallbackLoop_exhausted (poll : Nat → PollOutcome) (orig : RaisedError) :
    ∀ (fuel s elapsed : Nat),
      (∀ j, s ≤ j → j < s + fuel → retryablePoll (poll j)) →
      (fallbackLoop poll orig s fuel elapsed).1 = .reraisedTimeout orig := by
  intro fuel
  induction fuel with
  | zero => intro s elapsed _; simp [fallbackLoop]
  | succ fuel ih =>
    intro s elapsed hall
    have hr := hall s (Nat.le_refl s) (by omega)
    have hrec := ih (s + 1) (elapsed + 3)
      (fun j hj1 hj2 => hall j (by omega) (by omega))
    rcases hr with h | h | ⟨v', h⟩ <;>
      simp [fallbackLoop, h, hrec]

/-- A dispatch call triggers a refresh (of either kind) exactly when the
last check is older than 30 seconds or no endpoint is available. -/
theorem call_rpc_request_triggered (env : Env) (candidates : List String)
    (st : ProviderState) :
    (call_rpc_request env candidates st).1.triggered =
      (decide (st.lastCheck < env.now - 30) || st.available.isEmpty) := by
  by_cases h : st.lastCheck < env.now - 30 <;>
    by_cases he : st.available.isEmpty <;>
      by_cases hc : (check_available_rpcs env.probe candidates).isEmpty <;>
        simp [call_rpc_request, DispatchLog.triggered, h, he, hc]

/-- A dispatch call awaits a refresh synchronously exactly when no
endpoint is available at entry. -/
theorem call_rpc_request_awaited (env : Env) (candidates : List String)
    (st : ProviderState) :
    (call_rpc_request env candidates st).1.refreshAwaited = st.available.isEmpty := by
  by_cases h : st.lastCheck < env.now - 30 <;>
    by_cases he : st.available.isEmpty <;>
      by_cases hc : (check_available_rpcs env.probe candidates).isEmpty <;>
        simp [call_rpc_request, h, he, hc]

/-- The last-check timestamp recorded by a dispatch call: the current time
when a refresh was triggered, unchanged otherwise. -/
theorem call_rpc_request_lastCheck (env : Env) (candidates : List String)
    (st : ProviderState) :
    (call_rpc_request env candidates st).2.lastCheck =
      if (decide (st.lastCheck < env.now - 30) || st.available.isEmpty) = true
        then env.now else st.lastCheck := by
  by_cases h : st.lastCheck < env.now - 30 <;>
    by_cases he : st.available.isEmpty <;>
      by_cases hc : (check_available_rpcs env.probe candidates).isEmpty <;>
        simp [call_rpc_request, h, he, hc]

/-- A background refresh completing between calls only replaces the
available list; the last-check timestamp is untouched. -/
theorem applyBG_lastCheck (s : RunStep) (st : ProviderState) :
    (applyBG s st).lastCheck = st.lastCheck := by
  cases h : s.backgroundUpdate <;> simp [applyBG, h]

/-- A run in which no call triggers a refresh leaves the last-check
timestamp unchanged. -/
theorem dispatchRun_lastCheck_no_trigger (candidates : List String) :
    ∀ (steps : List RunStep) (st : ProviderState),
      (∀ log ∈ (dispatchRun candidates st steps).1, log.triggered = false) →
      (dispatchRun candidates st steps).2.lastCheck = st.lastCheck := by
  intro steps
  induction steps with
  | nil => intro st _; rfl
  | cons s rest ih =>
    intro st h
    have hhead : (call_rpc_request s.env candidates (applyBG s st)).1.triggered
        = false := by
      refine h _ ?_
      simp [dispatchRun]
    have hrest : ∀ log ∈ (dispatchRun candidates
        (call_rpc_request s.env candidates (applyBG s st)).2 rest).1,
        log.triggered = false := by
      intro log hlog
      refine h log ?_
      simp [dispatchRun]
      exact Or.inr hlog
    have hcond := call_rpc_request_triggered s.env candidates (applyBG s st)
    rw [hhead] at hcond
    have hlc := call_rpc_request_lastCheck s.env candidates (applyBG s st)
    rw [← hcond] at hlc
    simp at hlc
    have := ih (call_rpc_request s.env candidates (applyBG s st)).2 hrest
    simp only [dispatchRun]
    rw [this, hlc, applyBG_lastCheck]

/-! ## Claim theorems -/

/-- C2: for any candidate set and probe outcomes, the new available list
is sorted ascending by measured probe latency and contains exactly the
candidates whose probe came back HTTP 200 with a not-syncing body; erroring,
non-200 and syncing candidates are absent. -/
theorem health_snapshot_c2 (probe : String → ProbeOutcome) (candidates : List String) :
    List.Pairwise
      (fun a b => ∀ la lb, probe a = .ok la → probe b = .ok lb → la ≤ lb)
      (check_available_rpcs probe candidates) ∧
    ∀ a, a ∈ check_available_rpcs probe candidates ↔
      a ∈ candidates ∧ ∃ l, probe a = .ok l := by
  have hf : ∀ (addr : String) (p : String × Nat),
      (match probe addr with
        | .ok latency => some (addr, latency)
        | _ => none) = some p ↔ (p.1 = addr ∧ probe addr = .ok p.2) := by
    intro addr p
    cases hp : probe addr with
    | ok l =>
      simp only [hp]
      constructor
      · intro h
        cases h
        exact ⟨rfl, rfl⟩
      · rintro ⟨rfl, h⟩
        cases h
        rfl
    | syncing l => simp [hp]
    | badStatus code => simp [hp]
    | exn => simp [hp]
  have hpairs : ∀ p : String × Nat,
      p ∈ candidates.filterMap (fun addr =>
          match probe addr with
          | .ok latency => some (addr, latency)
          | _ => none) ↔ (p.1 ∈ candidates ∧ probe p.1 = .ok p.2) := by
    intro p
    rw [List.mem_filterMap]
    constructor
    · rintro ⟨addr, haddr, hsome⟩
      obtain ⟨rfl, hok⟩ := (hf addr p).mp hsome
      exact ⟨haddr, hok⟩
    · rintro ⟨hmem, hok⟩
      exact ⟨p.1, hmem, (hf p.1 p).mpr ⟨rfl, hok⟩⟩
  have hsorted : (List.mergeSort
      (candidates.filterMap (fun addr =>
          match probe addr with
          | .ok latency => some (addr, latency)
          | _ => none))
      (fun x y => x.2 ≤ y.2)).Pairwise (fun x y : String × Nat => x.2 ≤ y.2) := by
    have h := @List.sorted_mergeSort (String × Nat)
      (fun x y => decide (x.2 ≤ y.2))
      (fun a b c h₁ h₂ => by simp at *; omega)
      (fun a b => by simp; omega)
      (candidates.filterMap (fun addr =>
          match probe addr with
          | .ok latency => some (addr, latency)
          | _ => none))
    simpa using h
  constructor
  · rw [check_available_rpcs, List.pairwise_map]
    refine hsorted.imp_of_mem ?_
    intro x y hx hy hle la lb hla hlb
    have hx' := (hpairs x).mp (List.mem_mergeSort.mp hx)
    have hy' := (hpairs y).mp (List.mem_mergeSort.mp hy)
    rw [hx'.2] at hla
    rw [hy'.2] at hlb
    cases hla
    cases hlb
    exact hle
  · intro a
    rw [check_available_rpcs, List.mem_map]
    constructor
    · rintro ⟨p, hp, rfl⟩
      have := (hpairs p).mp (List.mem_mergeSort.mp hp)
      exact ⟨this.1, p.2, this.2⟩
    · rintro ⟨hmem, l, hok⟩
      exact ⟨(a, l), List.mem_mergeSort.mpr ((hpairs (a, l)).mpr ⟨hmem, hok⟩), rfl⟩

/-- C3: a dispatch call entered with an empty available list awaits a
refresh before any POST; every endpoint it then attempts comes from the
refreshed list, and if the refresh yields no endpoints the call raises
`RpcNotAvailableError` having attempted no POST at all. -/
theorem empty_snapshot_refresh_c3 (env : Env) (candidates : List String)
    (st : ProviderState) (hempty : st.available = []) :
    (call_rpc_request env candidates st).1.refreshAwaited = true ∧
    (∀ a ∈ (call_rpc_request env candidates st).1.attempted,
      a ∈ check_available_rpcs env.probe candidates) ∧
    (check_available_rpcs env.probe candidates = [] →
      (call_rpc_request env candidates st).1.result = .raisedNotAvailable ∧
      (call_rpc_request env candidates st).1.attempted = []) := by
  by_cases hre : check_available_rpcs env.probe candidates = []
  · refine ⟨?_, ?_, fun _ => ⟨?_, ?_⟩⟩ <;>
      simp [call_rpc_request, hempty, hre, requestLoop]
  · have hreF : (check_available_rpcs env.probe candidates).isEmpty = false := by
      cases h : check_available_rpcs env.probe candidates with
      | nil => exact absurd h hre
      | cons a l => simp
    refine ⟨?_, ?_, fun h => absurd h hre⟩
    · simp [call_rpc_request, hempty, hreF]
    · intro a ha
      simp only [call_rpc_request, hempty, List.isEmpty_nil, Bool.or_true,
        if_true, hreF, Bool.false_eq_true, if_false] at ha
      exact requestLoop_attempted_subset env.post _ a ha

/-- Witness for C3: one candidate whose probe errors — the refresh is
awaited, comes back empty, and the call raises without a POST. -/
theorem empty_snapshot_refresh_c3_witness :
    (call_rpc_request ⟨0, fun _ => .exn, fun _ => .otherFail⟩ ["a"]
        ⟨[], 0⟩).1.refreshAwaited = true ∧
    (call_rpc_request ⟨0, fun _ => .exn, fun _ => .otherFail⟩ ["a"]
        ⟨[], 0⟩).1.result = .raisedNotAvailable ∧
    (call_rpc_request ⟨0, fun _ => .exn, fun _ => .otherFail⟩ ["a"]
        ⟨[], 0⟩).1.attempted = [] := by
  obtain ⟨h1, _, h3⟩ :=
    empty_snapshot_refresh_c3 ⟨0, fun _ => .exn, fun _ => .otherFail⟩ ["a"] ⟨[], 0⟩ rfl
  obtain ⟨h4, h5⟩ := h3 (by simp [check_available_rpcs])
  exact ⟨h1, h4, h5⟩

/-- C5: for every response body containing an `error` field, classification
is the deterministic function `get_error_from_response`: the cause name is
looked up in the fixed provider mapping with unmapped names defaulting to
`InternalError`, and the returned error is the most specific kind reached
by the single-key walk over the error data (`specClassification`). -/
theorem error_classification_c5 (tbl : String → Bool) (err : ErrorObj) :
    get_error_from_response tbl err = specClassification tbl err ∧
    (∀ code, PROVIDER_CODE_TO_EXCEPTION.lookup code = none →
      providerLookup code = .InternalError) := by
  constructor
  · rw [get_error_from_response, specClassification, refineLoop_eq_specChain]
  · intro code h
    rw [providerLookup, h]
    rfl

/-- Witness for C5 at the spec's own scenario: cause
`INVALID_TRANSACTION`, body `{"InvalidTx": {"InvalidSignature": {}}}`,
with both keys in the action table. -/
theorem error_classification_c5_witness :
    get_error_from_response (fun k => k == "InvalidTx" || k == "InvalidSignature")
        ⟨"INVALID_TRANSACTION",
          .dict [("InvalidTx", .dict [("InvalidSignature", .dict [])])]⟩ =
      specClassification (fun k => k == "InvalidTx" || k == "InvalidSignature")
        ⟨"INVALID_TRANSACTION",
          .dict [("InvalidTx", .dict [("InvalidSignature", .dict [])])]⟩ ∧
    providerLookup "SOME_UNMAPPED_CAUSE" = .InternalError :=
  ⟨(error_classification_c5 _ _).1,
   (error_classification_c5 (fun _ => false) ⟨"", .other⟩).2 "SOME_UNMAPPED_CAUSE"
     (by decide)⟩

/-- C9: reading the `logs` property returns the transaction outcome's logs
followed by every receipt outcome's logs in order, but — contrary to the
read-only contract — mutates `transaction_outcome.logs` in place, so a
second read returns a different list. Evaluated at
`transaction_outcome.logs = ["a"]`, one receipt with logs `["b"]`. -/
theorem logs_read_mutates_c9 :
    (TransactionResult.logsProperty ⟨⟨["a"]⟩, [⟨["b"]⟩]⟩).1 = ["a", "b"] ∧
    (TransactionResult.logsProperty ⟨⟨["a"]⟩, [⟨["b"]⟩]⟩).2 ≠ ⟨⟨["a"]⟩, [⟨["b"]⟩]⟩ ∧
    (TransactionResult.logsProperty
        ⟨⟨["a"]⟩, [⟨["b"]⟩]⟩).2.transaction_outcome.logs = ["a", "b"] ∧
    (TransactionResult.logsProperty
        (TransactionResult.logsProperty ⟨⟨["a"]⟩, [⟨["b"]⟩]⟩).2).1 = ["a", "b", "b"] := by
  decide

/-- C10: when the content obtained from `call_rpc_request` is absent or an
empty dict (including an HTTP-success response whose body is `{}`),
`json_rpc` raises `RpcNotAvailableError`; and a `result` is returned only
when the content is a non-empty dict with no `error` field. -/
theorem json_rpc_empty_content_c10 (tbl : String → Bool) (env : Env)
    (candidates : List String) (st : ProviderState) :
    (∀ c, (call_rpc_request env candidates st).1.result = .content c →
      (c = none ∨ ∃ cc, c = some cc ∧ cc.isEmptyDict = true) →
      (json_rpc tbl env candidates st).1 = .raisedNotAvailable) ∧
    (∀ r, (json_rpc tbl env candidates st).1 = .ok r →
      ∃ cc, (call_rpc_request env candidates st).1.result = .content (some cc) ∧
        cc.isEmptyDict = false ∧ cc.error = none ∧ cc.result = some r) := by
  have hjson : (json_rpc tbl env candidates st).1 =
      match (call_rpc_request env candidates st).1.result with
      | .raisedNotAvailable => .raisedNotAvailable
      | .uncaughtExn => .uncaughtTransport
      | .content c => json_rpc_guard tbl c := by
    rw [json_rpc]
  constructor
  · intro c hres hc
    rw [hjson, hres]
    rcases hc with rfl | ⟨cc, rfl, hemp⟩
    · rfl
    · simp [json_rpc_guard, hemp]
  · intro r hok
    rw [hjson] at hok
    cases hres : (call_rpc_request env candidates st).1.result with
    | raisedNotAvailable => rw [hres] at hok; exact absurd hok (by simp)
    | uncaughtExn => rw [hres] at hok; exact absurd hok (by simp)
    | content c =>
      rw [hres] at hok
      cases c with
      | none => exact absurd hok (by simp [json_rpc_guard])
      | some cc =>
        refine ⟨cc, rfl, ?_⟩
        by_cases hemp : cc.isEmptyDict
        · simp [json_rpc_guard, hemp] at hok
        · cases herr : cc.error with
          | some e => simp [json_rpc_guard, hemp, herr] at hok
          | none =>
            cases hr : cc.result with
            | none => simp [json_rpc_guard, hemp, herr, hr] at hok
            | some r0 =>
              simp [json_rpc_guard, hemp, herr, hr] at hok
              exact ⟨by simp [hemp], rfl, by rw [hok]⟩

/-- C1: with a non-empty available list, the loop attempts the endpoints
in rank order; when every endpoint before `e` fails with a transport-class
exception and `e` succeeds, the call returns `e`'s decoded body having
attempted exactly the endpoints up to and including `e` — no later
endpoint. -/
theorem dispatch_rank_order_c1 (env : Env) (candidates : List String)
    (st : ProviderState) (pre rest : List String) (e : String) (c : Content)
    (havail : st.available = pre ++ e :: rest)
    (hpre : ∀ a ∈ pre, ∃ te, env.post a = .transportFail te)
    (he : env.post e = .success c) :
    (call_rpc_request env candidates st).1.result = .content (some c) ∧
    (call_rpc_request env candidates st).1.attempted = pre ++ [e] := by
  have hne : st.available.isEmpty = false := by simp [havail]
  have hloop := requestLoop_first_success env.post e c he pre rest hpre
  obtain ⟨hatt, hres⟩ := call_rpc_request_nonempty env candidates st hne
  rw [havail] at hatt hres
  rw [hloop] at hatt hres
  exact ⟨hres, hatt⟩

/-- Witness for C1: endpoints `["a", "b", "z"]`, where `a` gets a
connection error and `b` succeeds: the body comes from `b` and `z` is
never attempted. -/
theorem dispatch_rank_order_c1_witness :
    (call_rpc_request
        ⟨0, fun _ => .exn,
          fun s => if s == "a" then .transportFail .connectionError
            else .success ⟨none, some .other, []⟩⟩ []
        ⟨["a", "b", "z"], 0⟩).1.result = .content (some ⟨none, some .other, []⟩) ∧
    (call_rpc_request
        ⟨0, fun _ => .exn,
          fun s => if s == "a" then .transportFail .connectionError
            else .success ⟨none, some .other, []⟩⟩ []
        ⟨["a", "b", "z"], 0⟩).1.attempted = ["a", "b"] :=
  dispatch_rank_order_c1
    ⟨0, fun _ => .exn,
      fun s => if s == "a" then .transportFail .connectionError
        else .success ⟨none, some .other, []⟩⟩ []
    ⟨["a", "b", "z"], 0⟩ ["a"] ["z"] "b" ⟨none, some .other, []⟩ rfl
    (by
      intro a ha
      simp at ha
      subst ha
      exact ⟨.connectionError, rfl⟩)
    rfl

/-- C4: when every available endpoint fails with a caught transport-class
exception, every endpoint is attempted in turn, the loop yields no
content, and `json_rpc` raises `RpcNotAvailableError` — no transport
exception reaches the caller. -/
theorem transport_exhaustion_c4 (tbl : String → Bool) (env : Env)
    (candidates : List String) (st : ProviderState)
    (hne : st.available ≠ [])
    (hall : ∀ a ∈ st.available, ∃ te, env.post a = .transportFail te) :
    (call_rpc_request env candidates st).1.attempted = st.available ∧
    (call_rpc_request env candidates st).1.result = .content none ∧
    (json_rpc tbl env candidates st).1 = .raisedNotAvailable := by
  have hne' : st.available.isEmpty = false := by
    cases h : st.available with
    | nil => exact absurd h hne
    | cons a l => simp
  have hloop := requestLoop_all_transport env.post st.available hall
  obtain ⟨hatt, hres⟩ := call_rpc_request_nonempty env candidates st hne'
  rw [hloop] at hatt hres
  refine ⟨hatt, hres, ?_⟩
  have hjson : (json_rpc tbl env candidates st).1 =
      match (call_rpc_request env candidates st).1.result with
      | .raisedNotAvailable => .raisedNotAvailable
      | .uncaughtExn => .uncaughtTransport
      | .content c => json_rpc_guard tbl c := by
    rw [json_rpc]
  rw [hjson, hres]
  rfl

/-- Witness for C4: three endpoints, all with connection errors — all are
attempted and the call collapses into `RpcNotAvailableError`. -/
theorem transport_exhaustion_c4_witness :
    (call_rpc_request
        ⟨0, fun _ => .exn, fun _ => .transportFail .clientConnectorError⟩ []
        ⟨["a", "b", "z"], 0⟩).1.attempted = ["a", "b", "z"] ∧
    (call_rpc_request
        ⟨0, fun _ => .exn, fun _ => .transportFail .clientConnectorError⟩ []
        ⟨["a", "b", "z"], 0⟩).1.result = .content none ∧
    (json_rpc (fun _ => false)
        ⟨0, fun _ => .exn, fun _ => .transportFail .clientConnectorError⟩ []
        ⟨["a", "b", "z"], 0⟩).1 = .raisedNotAvailable :=
  transport_exhaustion_c4 (fun _ => false)
    ⟨0, fun _ => .exn, fun _ => .transportFail .clientConnectorError⟩ []
    ⟨["a", "b", "z"], 0⟩ (by simp)
    (fun a _ => ⟨.clientConnectorError, rfl⟩)

/-- C6: when the broadcast fails with an `RPCTimeoutError` classification
and both `trx_hash` and `receiver_id` are supplied, the dispatcher polls
`get_tx` every 3 seconds, at most `TIMEOUT_WAIT_RPC // 3` times; raised
`InternalError`s, any other raised exception and falsy results are
swallowed as retryable; the first truthy poll result is returned, and if
the bound is exhausted the original timeout error is re-raised unchanged. -/
theorem timeout_poll_fallback_c6 (timeoutWaitRpc : Nat) (orig : RaisedError)
    (trxHash receiverId : Option String) (poll : Nat → PollOutcome)
    (htr : pyTruthy trxHash = true) (hrc : pyTruthy receiverId = true) :
    (send_tx_and_wait timeoutWaitRpc (.rpcTimeout orig) trxHash receiverId
        poll).2.length ≤ timeoutWaitRpc / 3 ∧
    (send_tx_and_wait timeoutWaitRpc (.rpcTimeout orig) trxHash receiverId poll).2 =
      (List.range (send_tx_and_wait timeoutWaitRpc (.rpcTimeout orig) trxHash
          receiverId poll).2.length).map (fun j => 3 * (j + 1)) ∧
    (∀ i v, i < timeoutWaitRpc / 3 → (∀ j, j < i → retryablePoll (poll j)) →
      poll i = .ok true v →
      (send_tx_and_wait timeoutWaitRpc (.rpcTimeout orig) trxHash receiverId
          poll).1 = .polled i v) ∧
    ((∀ j, j < timeoutWaitRpc / 3 → retryablePoll (poll j)) →
      (send_tx_and_wait timeoutWaitRpc (.rpcTimeout orig) trxHash receiverId
          poll).1 = .reraisedTimeout orig) := by
  have hrun : send_tx_and_wait timeoutWaitRpc (.rpcTimeout orig) trxHash receiverId
      poll = fallbackLoop poll orig 0 (timeoutWaitRpc / 3) 0 := by
    simp [send_tx_and_wait, htr, hrc]
  obtain ⟨n, hn, hts⟩ := fallbackLoop_times poll orig (timeoutWaitRpc / 3) 0 0
  have hlen : (fallbackLoop poll orig 0 (timeoutWaitRpc / 3) 0).2.length = n := by
    rw [hts]
    simp
  refine ⟨?_, ?_, ?_, ?_⟩
  · rw [hrun, hlen]
    exact hn
  · rw [hrun, hlen, hts]
    refine List.map_congr_left ?_
    intro j _
    omega
  · intro i v hi hbefore hok
    rw [hrun]
    exact fallbackLoop_first_success poll orig (timeoutWaitRpc / 3) 0 0 i v
      (Nat.zero_le i) (by omega) (fun j _ hj => hbefore j hj) hok
  · intro hall
    rw [hrun]
    exact fallbackLoop_exhausted poll orig (timeoutWaitRpc / 3) 0 0
      (fun j _ hj => hall j (by omega))

/-- Witness for C6 with bound `9 // 3 = 3`: poll 0 raises `InternalError`,
poll 1 returns a truthy result — the fallback returns poll 1's result; and
with every poll raising, the original timeout error is re-raised. -/
theorem timeout_poll_fallback_c6_witness :
    (send_tx_and_wait 9 (.rpcTimeout ⟨.provider .RPCTimeoutError, .other⟩)
        (some "h") (some "r")
        (fun i => if i == 0 then .internalErr
          else if i == 1 then .ok true 7 else .otherExn)).1 = .polled 1 7 ∧
    (send_tx_and_wait 9 (.rpcTimeout ⟨.provider .RPCTimeoutError, .other⟩)
        (some "h") (some "r") (fun _ => .internalErr)).1 =
      .reraisedTimeout ⟨.provider .RPCTimeoutError, .other⟩ :=
  ⟨(timeout_poll_fallback_c6 9 ⟨.provider .RPCTimeoutError, .other⟩
      (some "h") (some "r")
      (fun i => if i == 0 then .internalErr
        else if i == 1 then .ok true 7 else .otherExn) rfl rfl).2.2.1 1 7
      (by omega)
      (fun j hj => by
        have hj0 : j = 0 := by omega
        subst hj0
        exact Or.inl rfl)
      rfl,
   (timeout_poll_fallback_c6 9 ⟨.provider .RPCTimeoutError, .other⟩
      (some "h") (some "r") (fun _ => .internalErr) rfl rfl).2.2.2
      (fun j _ => Or.inl rfl)⟩

/-- C7: across a run of dispatch calls, two refresh triggers with no
trigger in between are more than 30 seconds apart — unless the available
set is empty at the second trigger, in which case the refresh is forced
regardless of the cooldown and awaited synchronously. `stI` is a call that
triggered from an arbitrary reachable state `st`, `steps2` the
non-triggering calls after it, `stJ` the next triggering call. -/
theorem refresh_cooldown_c7 (candidates : List String) (st : ProviderState)
    (stI : RunStep) (steps2 : List RunStep) (stJ : RunStep)
    (hI : (call_rpc_request stI.env candidates (applyBG stI st)).1.triggered = true)
    (h2 : ∀ log ∈ (dispatchRun candidates
        (call_rpc_request stI.env candidates (applyBG stI st)).2 steps2).1,
      log.triggered = false)
    (hJ : (call_rpc_request stJ.env candidates (applyBG stJ
        (dispatchRun candidates
          (call_rpc_request stI.env candidates (applyBG stI st)).2
          steps2).2)).1.triggered = true) :
    ((applyBG stJ (dispatchRun candidates
        (call_rpc_request stI.env candidates (applyBG stI st)).2
        steps2).2).available ≠ [] →
      stJ.env.now > stI.env.now + 30) ∧
    ((applyBG stJ (dispatchRun candidates
        (call_rpc_request stI.env candidates (applyBG stI st)).2
        steps2).2).available = [] →
      (call_rpc_request stJ.env candidates (applyBG stJ
        (dispatchRun candidates
          (call_rpc_request stI.env candidates (applyBG stI st)).2
          steps2).2)).1.refreshAwaited = true) := by
  have hlcI := call_rpc_request_lastCheck stI.env candidates (applyBG stI st)
  have hcondI := call_rpc_request_triggered stI.env candidates (applyBG stI st)
  rw [hI] at hcondI
  rw [← hcondI] at hlcI
  simp only [if_true] at hlcI
  have hlc2 := dispatchRun_lastCheck_no_trigger candidates steps2
    (call_rpc_request stI.env candidates (applyBG stI st)).2 h2
  constructor
  · intro hne
    have hcondJ := call_rpc_request_triggered stJ.env candidates (applyBG stJ
      (dispatchRun candidates
        (call_rpc_request stI.env candidates (applyBG stI st)).2 steps2).2)
    rw [hJ] at hcondJ
    have hlcJ : (applyBG stJ (dispatchRun candidates
        (call_rpc_request stI.env candidates (applyBG stI st)).2
        steps2).2).lastCheck = stI.env.now := by
      rw [applyBG_lastCheck, hlc2, hlcI]
    have hempJ : (applyBG stJ (dispatchRun candidates
        (call_rpc_request stI.env candidates (applyBG stI st)).2
        steps2).2).available.isEmpty = false := by
      cases hav : (applyBG stJ (dispatchRun candidates
          (call_rpc_request stI.env candidates (applyBG stI st)).2
          steps2).2).available with
      | nil => exact absurd hav hne
      | cons a l => simp
    rw [hempJ, hlcJ] at hcondJ
    simp at hcondJ
    omega
  · intro hemp
    rw [call_rpc_request_awaited, hemp]
    rfl

/-- Witness for C7: a call with one endpoint triggers (spawns) a refresh
at time 50; a background completion then replaces the list; the next
trigger happens at time 100: indeed 100 > 50 + 30. -/
theorem refresh_cooldown_c7_witness :
    ((applyBG ⟨⟨100, fun _ => .exn, fun _ => .transportFail .connectionError⟩, some ["x"]⟩
        (dispatchRun []
          (call_rpc_request ⟨50, fun _ => .exn, fun _ => .transportFail .connectionError⟩ []
            (applyBG ⟨⟨50, fun _ => .exn, fun _ => .transportFail .connectionError⟩, none⟩
              ⟨["a"], 0⟩)).2
          []).2).available ≠ [] →
      (100 : Int) > 50 + 30) ∧
    ((applyBG ⟨⟨100, fun _ => .exn, fun _ => .transportFail .connectionError⟩, some ["x"]⟩
        (dispatchRun []
          (call_rpc_request ⟨50, fun _ => .exn, fun _ => .transportFail .connectionError⟩ []
            (applyBG ⟨⟨50, fun _ => .exn, fun _ => .transportFail .connectionError⟩, none⟩
              ⟨["a"], 0⟩)).2
          []).2).available = [] →
      (call_rpc_request ⟨100, fun _ => .exn, fun _ => .transportFail .connectionError⟩ []
        (applyBG ⟨⟨100, fun _ => .exn, fun _ => .transportFail .connectionError⟩, some ["x"]⟩
          (dispatchRun []
            (call_rpc_request ⟨50, fun _ => .exn, fun _ => .transportFail .connectionError⟩ []
              (applyBG ⟨⟨50, fun _ => .exn, fun _ => .transportFail .connectionError⟩, none⟩
                ⟨["a"], 0⟩)).2
            []).2)).1.refreshAwaited = true) :=
  refresh_cooldown_c7 [] ⟨["a"], 0⟩
    ⟨⟨50, fun _ => .exn, fun _ => .transportFail .connectionError⟩, none⟩ []
    ⟨⟨100, fun _ => .exn, fun _ => .transportFail .connectionError⟩, some ["x"]⟩
    rfl (by intro log hlog; simp [dispatchRun] at hlog) rfl

/-- Running only probe segments accumulates the local list and never
touches the shared attribute. -/
theorem runSegments_probe_only (probe : String → ProbeOutcome) :
    ∀ (cs : List String) (s : ConcState),
      runSegments (cs.map (refreshStep probe)) s =
        ⟨s.shared, s.localAcc ++ cs.filterMap (fun addr =>
          match probe addr with
          | .ok latency => some (addr, latency)
          | _ => none)⟩ := by
  intro cs
  induction cs with
  | nil => intro s; simp [runSegments]
  | cons a rest ih =>
    intro s
    have hstep : runSegments ((a :: rest).map (refreshStep probe)) s =
        runSegments (rest.map (refreshStep probe)) (refreshStep probe a s) := by
      simp [runSegments]
    rw [hstep, ih]
    simp [refreshStep, List.filterMap_cons]
    cases hp : probe a <;> simp [hp]

/-- C8: the snapshot is replaced atomically — a dispatch call scheduled
after any number `k` of the refresh's atomic segments reads either the old
available list in full or the completely rebuilt `check_available_rpcs`
result, never the list under construction. -/
theorem atomic_snapshot_c8 (probe : String → ProbeOutcome)
    (candidates : List String) (old : List String) (k : Nat) :
    (runSegments ((refreshProgram probe candidates).take k) ⟨old, []⟩).shared = old ∨
    (runSegments ((refreshProgram probe candidates).take k) ⟨old, []⟩).shared =
      check_available_rpcs probe candidates := by
  by_cases hk : k ≤ candidates.length
  · left
    have htake : (refreshProgram probe candidates).take k =
        (candidates.take k).map (refreshStep probe) := by
      rw [refreshProgram, List.take_append_of_le_length (by simp [hk]),
        List.map_take]
    rw [htake, runSegments_probe_only]
  · right
    have htake : (refreshProgram probe candidates).take k =
        refreshProgram probe candidates := by
      refine List.take_of_length_le ?_
      simp [refreshProgram]
      omega
    rw [htake, refreshProgram]
    have happ : runSegments
        (candidates.map (refreshStep probe) ++ [refreshCommit]) ⟨old, []⟩ =
        refreshCommit (runSegments (candidates.map (refreshStep probe))
          ⟨old, []⟩) := by
      simp [runSegments]
    rw [happ, runSegments_probe_only]
    simp [refreshCommit, check_available_rpcs]

/-- Witness for C10: an endpoint answering 2xx with the empty JSON object
`{}` makes `json_rpc` raise `RpcNotAvailableError`; one answering
`{"result": ...}` makes it return the result field. -/
theorem json_rpc_empty_content_c10_witness :
    (json_rpc (fun _ => false)
        ⟨0, fun _ => .exn, fun _ => .success ⟨none, none, []⟩⟩ [] ⟨["x"], 0⟩).1 =
      .raisedNotAvailable ∧
    ∃ cc, (call_rpc_request
        ⟨0, fun _ => .exn, fun _ => .success ⟨none, some .other, []⟩⟩ []
        ⟨["x"], 0⟩).1.result = .content (some cc) ∧
      cc.isEmptyDict = false ∧ cc.error = none ∧ cc.result = some .other :=
  ⟨(json_rpc_empty_content_c10 (fun _ => false)
      ⟨0, fun _ => .exn, fun _ => .success ⟨none, none, []⟩⟩ [] ⟨["x"], 0⟩).1
      (some ⟨none, none, []⟩) rfl (Or.inr ⟨⟨none, none, []⟩, rfl, rfl⟩),
   (json_rpc_empty_content_c10 (fun _ => false)
      ⟨0, fun _ => .exn, fun _ => .success ⟨none, some .other, []⟩⟩ [] ⟨["x"], 0⟩).2
      .other rfl⟩

end NRC20
